import Mathlib

/-!
Shallow embedding of `src/progress_bar.py` (class `ProgressBar`).

Modelling conventions:
* Python `int` fields become `Int`; the spinner index only ever holds values
  produced by `(i + 1) % len`, so it is a `Nat`.
* Python `float` arithmetic (`percentage`, the `.2f` format) is modelled
  exactly over `ℚ`; `int(x)` is truncation toward zero; `f-string {x:.2f}`
  is rounding to hundredths with ties to even, the sign split off first.
* `__init__` takes `total : Option Int` (`none` models Python `None`) and
  returns `Except String ProgressBar`: `_validate_total` raising `ValueError`
  is the `.error` branch, so no object is produced on failure.
* The output sink is modelled by `display` returning the exact string written
  (a single `write` call) together with the post-state; a failing glyph
  lookup (Python `IndexError` on `spinner_chars[spinner_index]`) is `none`.
* Python string indexing is by code point, so `spinner_chars` is `List Char`.
-/

structure ProgressBar where
  total : Int
  bar_length : Int
  full_char : String
  empty_char : String
  spinner_chars : List Char
  color_full : String
  color_empty : String
  color_spinner : String
  color_status : String
  color_complete : String
  reset : String
  clear_line : String
  current_value : Int
  spinner_index : Nat
deriving DecidableEq

/-- `__init__` followed by `_validate_total`: every configuration field is
stored as given; `current_value = 0`, `spinner_index = 0`; `ValueError` is
raised exactly when `total is None or total <= 0`. -/
def mkProgressBar (total : Option Int) (bar_length : Int)
    (full_char empty_char : String) (spinner_chars : List Char)
    (color_full color_empty color_spinner color_status color_complete
      reset clear_line : String) : Except String ProgressBar :=
  match total with
  | none => Except.error "Total steps must be specified and greater than 0."
  | some t =>
    if t ≤ 0 then Except.error "Total steps must be specified and greater than 0."
    else Except.ok
      { total := t, bar_length := bar_length, full_char := full_char
        empty_char := empty_char, spinner_chars := spinner_chars
        color_full := color_full, color_empty := color_empty
        color_spinner := color_spinner, color_status := color_status
        color_complete := color_complete, reset := reset
        clear_line := clear_line, current_value := 0, spinner_index := 0 }

/-- The default `spinner_chars` argument of `__init__`. -/
def defaultSpinnerChars : List Char := "⠋⠙⠹⠸⠼⠴⠦⠧⠇⠏".toList

/-- `ProgressBar(total)` with every keyword argument left at its default. -/
def mkDefaultBar (total : Option Int) : Except String ProgressBar :=
  mkProgressBar total 30 "▰" "▱" defaultSpinnerChars
    "\x1b[1;38;2;224;0;90m" "\x1b[1;38;2;54;65;82m" "\x1b[1;38;2;255;215;0m"
    "\x1b[1;38;2;104;118;244m" "\x1b[1;38;2;12;159;109m" "\x1b[0m" "\x1b[K"

/-- The `percentage` property: `(current_value / total) * 100`. -/
def ProgressBar.percentage (pb : ProgressBar) : ℚ :=
  ((pb.current_value : ℚ) / (pb.total : ℚ)) * 100

/-- Python `int(x)` on a real value: truncation toward zero. -/
def qTrunc (q : ℚ) : Int := if 0 ≤ q then ⌊q⌋ else ⌈q⌉

/-- Python `s * n` for a string and an integer: `n ≤ 0` yields `""`. -/
def pyRepeat (s : String) (n : Int) : String :=
  String.join (List.replicate n.toNat s)

/-- `filled_length` as computed inside `_generate_bar`:
`int(self.percentage / 100 * self.bar_length)`. -/
def ProgressBar.filled_length (pb : ProgressBar) : Int :=
  qTrunc (pb.percentage / 100 * (pb.bar_length : ℚ))

/-- `_generate_bar`: colored filled part then colored empty part. -/
def ProgressBar.generate_bar (pb : ProgressBar) : String :=
  pb.color_full ++ pyRepeat pb.full_char pb.filled_length ++ pb.reset
    ++ pb.color_empty ++ pyRepeat pb.empty_char (pb.bar_length - pb.filled_length)
    ++ pb.reset

/-- `_get_spinner`: reads `spinner_chars[spinner_index]` (Python `IndexError`,
modelled as `none`, when the index is out of range — in particular when
`spinner_chars` is empty), advances the index modulo the glyph count, and
returns the color-wrapped glyph. -/
def ProgressBar.get_spinner (pb : ProgressBar) : Option (String × ProgressBar) :=
  match pb.spinner_chars[pb.spinner_index]? with
  | none => none
  | some c =>
    some (pb.color_spinner ++ c.toString ++ pb.reset,
      { pb with spinner_index := (pb.spinner_index + 1) % pb.spinner_chars.length })

/-- Rounding to the nearest integer with ties to even, as used by the exact
model of Python float formatting. -/
def roundHalfEven (q : ℚ) : Int :=
  if q - ⌊q⌋ < 1 / 2 then ⌊q⌋
  else if (1 : ℚ) / 2 < q - ⌊q⌋ then ⌊q⌋ + 1
  else if ⌊q⌋ % 2 = 0 then ⌊q⌋ else ⌊q⌋ + 1

/-- Two decimal digits, left-padded with `0`. -/
def pad2 (n : Int) : String :=
  if n < 10 then "0" ++ toString n else toString n

/-- `f-string {q:.2f}` for a non-negative value: round `q` to hundredths
(ties to even) and print `whole.fraction` with exactly two fraction digits. -/
def fmtTwoDecimalsNonneg (q : ℚ) : String :=
  toString (roundHalfEven (q * 100) / 100) ++ "." ++ pad2 (roundHalfEven (q * 100) % 100)

/-- `f-string {q:.2f}`: sign, then the non-negative format of the magnitude. -/
def fmtTwoDecimals (q : ℚ) : String :=
  if q < 0 then "-" ++ fmtTwoDecimalsNonneg (-q) else fmtTwoDecimalsNonneg q

/-- `status_text` as computed in `display`. -/
def ProgressBar.status_text (pb : ProgressBar) : String :=
  if 100 ≤ pb.percentage then "Completed!" else fmtTwoDecimals pb.percentage ++ "%"

/-- `status_color` as computed in `display`. -/
def ProgressBar.status_color (pb : ProgressBar) : String :=
  if 100 ≤ pb.percentage then pb.color_complete else pb.color_status

/-- `display`: the single string written to the sink (and the post-state with
the spinner advanced), or `none` when the glyph lookup raises. The spinner
mutation does not affect any field read by `_generate_bar`, `status_color` or
`status_text`, so those are evaluated on the pre-state. -/
def ProgressBar.display (pb : ProgressBar) : Option (String × ProgressBar) :=
  match pb.get_spinner with
  | none => none
  | some (sp, pb2) =>
    some ("\r" ++ pb.clear_line ++ sp ++ " " ++ pb.generate_bar ++ " "
        ++ pb.status_color ++ pb.status_text ++ pb.reset, pb2)

/-- `update(value)`: `current_value = min(current_value + value, total)`. -/
def ProgressBar.update (pb : ProgressBar) (value : Int) : ProgressBar :=
  { pb with current_value := min (pb.current_value + value) pb.total }

/-- A finite sequence of `update` calls, applied left to right. -/
def applyUpdates (pb : ProgressBar) (xs : List Int) : ProgressBar :=
  xs.foldl ProgressBar.update pb

/-- The state after `k` successful `_get_spinner` calls. -/
def spinnerStateAfter (pb : ProgressBar) : Nat → Option ProgressBar
  | 0 => some pb
  | k + 1 => (spinnerStateAfter pb k).bind fun st => st.get_spinner.map Prod.snd

/-- The string returned by the `k`-th (0-indexed) `_get_spinner` call. -/
def spinnerGlyphAt (pb : ProgressBar) (k : Nat) : Option String :=
  (spinnerStateAfter pb k).bind fun st => st.get_spinner.map Prod.fst

/-- The bar `ProgressBar(total=1)` (all keyword arguments default). -/
def pbDefault1 : ProgressBar :=
  ⟨1, 30, "▰", "▱", defaultSpinnerChars,
    "\x1b[1;38;2;224;0;90m", "\x1b[1;38;2;54;65;82m", "\x1b[1;38;2;255;215;0m",
    "\x1b[1;38;2;104;118;244m", "\x1b[1;38;2;12;159;109m", "\x1b[0m", "\x1b[K",
    0, 0⟩

/-- The bar `ProgressBar(total=200, bar_length=50)`, as built by
`simulate_task(200)` up to its `bar_length` override. -/
def pbBar50 : ProgressBar :=
  ⟨200, 50, "▰", "▱", defaultSpinnerChars,
    "\x1b[1;38;2;224;0;90m", "\x1b[1;38;2;54;65;82m", "\x1b[1;38;2;255;215;0m",
    "\x1b[1;38;2;104;118;244m", "\x1b[1;38;2;12;159;109m", "\x1b[0m", "\x1b[K",
    0, 0⟩

/-- A small fully-custom bar (total 4, two-glyph spinner, one step taken),
used to instantiate universally quantified theorems on concrete data. -/
def pbDemo : ProgressBar :=
  ⟨4, 2, "#", "-", ['a', 'b'], "F", "E", "S", "T", "C", "R", "L", 1, 0⟩

/-- The bar `ProgressBar(total=3)` after `update(1)`. -/
def pbThird : ProgressBar :=
  ⟨3, 30, "▰", "▱", defaultSpinnerChars,
    "\x1b[1;38;2;224;0;90m", "\x1b[1;38;2;54;65;82m", "\x1b[1;38;2;255;215;0m",
    "\x1b[1;38;2;104;118;244m", "\x1b[1;38;2;12;159;109m", "\x1b[0m", "\x1b[K",
    1, 0⟩

/-- The bar `ProgressBar(total=5)` (all keyword arguments default). -/
def pbFive : ProgressBar :=
  ⟨5, 30, "▰", "▱", defaultSpinnerChars,
    "\x1b[1;38;2;224;0;90m", "\x1b[1;38;2;54;65;82m", "\x1b[1;38;2;255;215;0m",
    "\x1b[1;38;2;104;118;244m", "\x1b[1;38;2;12;159;109m", "\x1b[0m", "\x1b[K",
    0, 0⟩

/-! ## Helper lemmas -/

lemma total_cast_pos (pb : ProgressBar) (ht : 0 < pb.total) :
    (0 : ℚ) < (pb.total : ℚ) := by exact_mod_cast ht

lemma hundred_le_percentage_iff (pb : ProgressBar) (ht : 0 < pb.total) :
    100 ≤ pb.percentage ↔ pb.total ≤ pb.current_value := by
  rw [ProgressBar.percentage, mul_comm,
    le_mul_iff_one_le_right (by norm_num : (0:ℚ) < 100),
    one_le_div (total_cast_pos pb ht)]
  exact_mod_cast Iff.rfl

lemma percentage_lt_iff (pb : ProgressBar) (ht : 0 < pb.total) :
    pb.percentage < 100 ↔ pb.current_value < pb.total := by
  rw [← not_le, ← not_le, not_iff_not]
  exact hundred_le_percentage_iff pb ht

lemma percentage_nonneg (pb : ProgressBar) (ht : 0 < pb.total)
    (h0 : 0 ≤ pb.current_value) : 0 ≤ pb.percentage := by
  rw [ProgressBar.percentage]
  have h1 : (0 : ℚ) ≤ (pb.current_value : ℚ) := by exact_mod_cast h0
  positivity

lemma percentage_complete (pb : ProgressBar) (ht : 0 < pb.total)
    (h : pb.current_value = pb.total) : pb.percentage = 100 := by
  rw [ProgressBar.percentage, h, div_self (total_cast_pos pb ht).ne']
  norm_num

lemma percentage_div_mul (pb : ProgressBar) :
    pb.percentage / 100 * (pb.bar_length : ℚ)
      = (pb.current_value : ℚ) / (pb.total : ℚ) * (pb.bar_length : ℚ) := by
  rw [ProgressBar.percentage]; ring

lemma filled_length_eq_floor (pb : ProgressBar) (ht : 0 < pb.total)
    (h0 : 0 ≤ pb.current_value) (hb : 0 ≤ pb.bar_length) :
    pb.filled_length = ⌊pb.percentage / 100 * (pb.bar_length : ℚ)⌋ := by
  rw [ProgressBar.filled_length, qTrunc, if_pos]
  rw [percentage_div_mul]
  have hc : (0 : ℚ) ≤ (pb.current_value : ℚ) := by exact_mod_cast h0
  have hb2 : (0 : ℚ) ≤ (pb.bar_length : ℚ) := by exact_mod_cast hb
  positivity

lemma filled_length_bounds (pb : ProgressBar) (ht : 0 < pb.total)
    (h0 : 0 ≤ pb.current_value) (h1 : pb.current_value ≤ pb.total)
    (hb : 0 ≤ pb.bar_length) :
    0 ≤ pb.filled_length ∧ pb.filled_length ≤ pb.bar_length := by
  rw [filled_length_eq_floor pb ht h0 hb, percentage_div_mul]
  have hc : (0 : ℚ) ≤ (pb.current_value : ℚ) := by exact_mod_cast h0
  have hb2 : (0 : ℚ) ≤ (pb.bar_length : ℚ) := by exact_mod_cast hb
  have htq := total_cast_pos pb ht
  constructor
  · exact Int.floor_nonneg.mpr (by positivity)
  · have hle : (pb.current_value : ℚ) / (pb.total : ℚ) * (pb.bar_length : ℚ)
        ≤ (pb.bar_length : ℚ) := by
      apply mul_le_of_le_one_left hb2
      rw [div_le_one htq]
      exact_mod_cast h1
    calc ⌊(pb.current_value : ℚ) / (pb.total : ℚ) * (pb.bar_length : ℚ)⌋
        ≤ ⌊(pb.bar_length : ℚ)⌋ := Int.floor_le_floor hle
      _ = pb.bar_length := Int.floor_intCast pb.bar_length

lemma get_spinner_of_lt (pb : ProgressBar)
    (h : pb.spinner_index < pb.spinner_chars.length) :
    pb.get_spinner = some
      (pb.color_spinner ++ (pb.spinner_chars.get ⟨pb.spinner_index, h⟩).toString
          ++ pb.reset,
        { pb with spinner_index := (pb.spinner_index + 1) % pb.spinner_chars.length }) := by
  rw [ProgressBar.get_spinner]
  rw [List.getElem?_eq_getElem h]
  simp [List.get_eq_getElem]

lemma spinnerStateAfter_mod (pb : ProgressBar)
    (hne : 0 < pb.spinner_chars.length) (h0 : pb.spinner_index = 0) (k : Nat) :
    spinnerStateAfter pb k
      = some { pb with spinner_index := k % pb.spinner_chars.length } := by
  induction k with
  | zero =>
    rw [spinnerStateAfter]
    rw [Nat.zero_mod, ← h0]
  | succ n ih =>
    rw [spinnerStateAfter, ih, Option.some_bind]
    have hlt : ({ pb with spinner_index := n % pb.spinner_chars.length }
        : ProgressBar).spinner_index
        < ({ pb with spinner_index := n % pb.spinner_chars.length }
        : ProgressBar).spinner_chars.length := Nat.mod_lt n hne
    rw [get_spinner_of_lt _ hlt]
    rw [Nat.mod_add_mod]
    rfl

lemma applyUpdates_nil (pb : ProgressBar) : applyUpdates pb [] = pb := rfl

lemma applyUpdates_cons (pb : ProgressBar) (x : Int) (xs : List Int) :
    applyUpdates pb (x :: xs) = applyUpdates (pb.update x) xs := rfl

lemma applyUpdates_total (pb : ProgressBar) (xs : List Int) :
    (applyUpdates pb xs).total = pb.total := by
  induction xs generalizing pb with
  | nil => rfl
  | cons x xs ih =>
    rw [applyUpdates, List.foldl_cons]
    exact ih (pb.update x)

lemma applyUpdates_le_total (pb : ProgressBar) (xs : List Int)
    (h1 : pb.current_value ≤ pb.total) :
    (applyUpdates pb xs).current_value ≤ (applyUpdates pb xs).total := by
  induction xs generalizing pb with
  | nil => exact h1
  | cons x xs ih =>
    rw [applyUpdates, List.foldl_cons]
    exact ih (pb.update x) (min_le_right _ _)

lemma applyUpdates_sum (pb : ProgressBar) (xs : List Int)
    (hx : ∀ x ∈ xs, 0 ≤ x) (h1 : pb.current_value ≤ pb.total) :
    (applyUpdates pb xs).current_value
      = min (pb.current_value + xs.sum) pb.total := by
  induction xs generalizing pb with
  | nil =>
    rw [applyUpdates, List.foldl_nil, List.sum_nil, add_zero]
    exact (min_eq_left h1).symm
  | cons x xs ih =>
    rw [applyUpdates_cons, List.sum_cons]
    have hx0 : 0 ≤ x := hx x (List.mem_cons_self x xs)
    have hxs : ∀ y ∈ xs, 0 ≤ y := fun y hy => hx y (List.mem_cons_of_mem x hy)
    have hsum : 0 ≤ xs.sum := List.sum_nonneg hxs
    rw [ih (pb.update x) hxs (min_le_right _ _)]
    rw [ProgressBar.update]
    rcases le_or_lt (pb.current_value + x) pb.total with hle | hgt
    · rw [min_eq_left hle]
      rw [add_assoc]
    · rw [min_eq_right hgt.le]
      rw [min_eq_right (by linarith), min_eq_right (by linarith)]

lemma append_percent_ne_completed (s : String) : s ++ "%" ≠ "Completed!" := by
  intro h
  have hd : s.data ++ ['%'] = "Completed!".data := by
    rw [← String.data_append, h]
  have hl := congrArg List.getLast? hd
  rw [List.getLast?_concat] at hl
  exact absurd (Option.some.inj hl) (by decide)

lemma roundHalfEven_eval (q : ℚ) (n : Int) (hf : ⌊q⌋ = n)
    (hlt : q - (n : ℚ) < 1 / 2) : roundHalfEven q = n := by
  rw [roundHalfEven, hf, if_pos hlt]

lemma fmtTwoDecimals_eval (q : ℚ) (n : Int) (h0 : ¬ q < 0) (hf : ⌊q * 100⌋ = n)
    (hlt : q * 100 - (n : ℚ) < 1 / 2) :
    fmtTwoDecimals q = toString (n / 100) ++ "." ++ pad2 (n % 100) := by
  rw [fmtTwoDecimals, if_neg h0, fmtTwoDecimalsNonneg,
    roundHalfEven_eval (q * 100) n hf hlt]

/-! ## Claim theorems -/

/-- Claim C2: for every state with `current_value ∈ [0, total]` and every
integer amount (negative included), `update` sets `current_value` to
`min(current_value + amount, total)`, raises no error (it is a total
function in the model), and changes no other field. -/
theorem C2_update_spec (pb : ProgressBar) (v : Int)
    (h0 : 0 ≤ pb.current_value) (h1 : pb.current_value ≤ pb.total) :
    (pb.update v).current_value = min (pb.current_value + v) pb.total
    ∧ (pb.update v).total = pb.total
    ∧ (pb.update v).bar_length = pb.bar_length
    ∧ (pb.update v).full_char = pb.full_char
    ∧ (pb.update v).empty_char = pb.empty_char
    ∧ (pb.update v).spinner_chars = pb.spinner_chars
    ∧ (pb.update v).color_full = pb.color_full
    ∧ (pb.update v).color_empty = pb.color_empty
    ∧ (pb.update v).color_spinner = pb.color_spinner
    ∧ (pb.update v).color_status = pb.color_status
    ∧ (pb.update v).color_complete = pb.color_complete
    ∧ (pb.update v).reset = pb.reset
    ∧ (pb.update v).clear_line = pb.clear_line
    ∧ (pb.update v).spinner_index = pb.spinner_index :=
  ⟨rfl, rfl, rfl, rfl, rfl, rfl, rfl, rfl, rfl, rfl, rfl, rfl, rfl, rfl⟩

/-- Witness for C2 at `pbDemo` with the negative amount `-5`: the result is
`min(1 + (-5), 4) = -4` (in particular no clamping at zero occurs). -/
theorem C2_update_witness :
    (pbDemo.update (-5)).current_value
        = min (pbDemo.current_value + (-5)) pbDemo.total
    ∧ (pbDemo.update (-5)).current_value = -4 :=
  ⟨(C2_update_spec pbDemo (-5) (by decide) (by decide)).1, by decide⟩

/-- Claim C3: construction fails with the `InvalidTotal` error exactly when
`total` is `None` or `total ≤ 0` (no object is produced), and for `total > 0`
it succeeds with `current_value = 0`, `spinner_index = 0` and percentage 0. -/
theorem C3_construct_spec (t : Option Int) (bl : Int) (fc ec : String)
    (sc : List Char) (c1 c2 c3 c4 c5 r cl : String) :
    ((∃ e, mkProgressBar t bl fc ec sc c1 c2 c3 c4 c5 r cl = Except.error e)
        ↔ t = none ∨ ∃ v, t = some v ∧ v ≤ 0)
    ∧ ∀ v, t = some v → 0 < v →
        mkProgressBar t bl fc ec sc c1 c2 c3 c4 c5 r cl
          = Except.ok ⟨v, bl, fc, ec, sc, c1, c2, c3, c4, c5, r, cl, 0, 0⟩
        ∧ (⟨v, bl, fc, ec, sc, c1, c2, c3, c4, c5, r, cl, 0, 0⟩
            : ProgressBar).percentage = 0 := by
  constructor
  · cases t with
    | none =>
      exact ⟨fun _ => Or.inl rfl, fun _ => ⟨_, rfl⟩⟩
    | some v =>
      by_cases hv : v ≤ 0
      · refine ⟨fun _ => Or.inr ⟨v, rfl, hv⟩, fun _ =>
          ⟨"Total steps must be specified and greater than 0.", ?_⟩⟩
        simp only [mkProgressBar]
        rw [if_pos hv]
      · constructor
        · rintro ⟨e, he⟩
          simp only [mkProgressBar] at he
          rw [if_neg hv] at he
          exact Except.noConfusion he
        · rintro (h | ⟨v2, hv2, hle⟩)
          · exact Option.noConfusion h
          · exact absurd (Option.some.inj hv2 ▸ hle) hv
  · rintro v rfl hpos
    have hmk : mkProgressBar (some v) bl fc ec sc c1 c2 c3 c4 c5 r cl
        = Except.ok ⟨v, bl, fc, ec, sc, c1, c2, c3, c4, c5, r, cl, 0, 0⟩ := by
      simp only [mkProgressBar]
      rw [if_neg (not_le.mpr hpos)]
    refine ⟨hmk, ?_⟩
    rw [ProgressBar.percentage]
    norm_num

/-- Witness for C3: `total = 7` constructs successfully, with zero initial
progress and percentage 0. -/
theorem C3_construct_witness :
    mkProgressBar (some 7) 2 "#" "-" ['a'] "F" "E" "S" "T" "C" "R" "L"
      = Except.ok ⟨7, 2, "#", "-", ['a'], "F", "E", "S", "T", "C", "R", "L", 0, 0⟩
    ∧ (⟨7, 2, "#", "-", ['a'], "F", "E", "S", "T", "C", "R", "L", 0, 0⟩
        : ProgressBar).percentage = 0 :=
  (C3_construct_spec (some 7) 2 "#" "-" ['a'] "F" "E" "S" "T" "C" "R" "L").2
    7 rfl (by decide)

/-- Claim C4: the status text is exactly `"Completed!"` iff the percentage is
at least 100 (and the completion color is then used); otherwise it is the
two-decimal percentage followed by `%` in the status color; for
`current = 1`, `total = 3` it is `"33.33%"`. -/
theorem C4_status_spec (pb : ProgressBar) :
    (pb.status_text = "Completed!" ↔ 100 ≤ pb.percentage)
    ∧ (100 ≤ pb.percentage → pb.status_color = pb.color_complete)
    ∧ (pb.percentage < 100 →
        pb.status_text = fmtTwoDecimals pb.percentage ++ "%"
          ∧ pb.status_color = pb.color_status)
    ∧ (pb.total = 3 → pb.current_value = 1 → pb.status_text = "33.33%") := by
  refine ⟨?_, ?_, ?_, ?_⟩
  · by_cases hp : 100 ≤ pb.percentage
    · rw [ProgressBar.status_text, if_pos hp]
      exact ⟨fun _ => hp, fun _ => rfl⟩
    · rw [ProgressBar.status_text, if_neg hp]
      exact ⟨fun h => absurd h (append_percent_ne_completed _), fun h => absurd h hp⟩
  · intro hp
    rw [ProgressBar.status_color, if_pos hp]
  · intro hp
    have hp2 : ¬ 100 ≤ pb.percentage := not_le.mpr hp
    exact ⟨by rw [ProgressBar.status_text, if_neg hp2],
      by rw [ProgressBar.status_color, if_neg hp2]⟩
  · intro h3 h1
    have hp : pb.percentage = 100 / 3 := by
      rw [ProgressBar.percentage, h3, h1]
      norm_num
    have hfmt : fmtTwoDecimals (100 / 3 : ℚ) = "33.33" := by
      rw [fmtTwoDecimals_eval (100 / 3 : ℚ) 3333 (by norm_num) (by norm_num)
        (by norm_num)]
      decide
    rw [ProgressBar.status_text, hp, if_neg (by norm_num), hfmt]
    rfl

/-- Witness for C4 at `pbThird` (`total = 3`, one step taken): the status
text is the two-decimal percentage `"33.33%"`, not `"Completed!"`. -/
theorem C4_status_witness :
    pbThird.status_text = "33.33%"
    ∧ (pbThird.status_text = "Completed!" ↔ 100 ≤ pbThird.percentage) :=
  ⟨(C4_status_spec pbThird).2.2.2 (by decide) (by decide),
    (C4_status_spec pbThird).1⟩

/-- Claim C1: on a well-formed state (positive total, `current_value` in
`[0, total]`, non-negative bar length, in-range spinner index — the state of
any constructed bar driven by non-negative increments), `display` writes
exactly the carriage return, clear-line code, color-wrapped spinner glyph,
space, color-wrapped fill and empty runs, space, and color-wrapped status
text, with run lengths `N1 = filled_length` and `N2 = bar_length - N1`. -/
theorem C1_display_format (pb : ProgressBar) (ht : 0 < pb.total)
    (h0 : 0 ≤ pb.current_value) (h1 : pb.current_value ≤ pb.total)
    (hb : 0 ≤ pb.bar_length)
    (hs : pb.spinner_index < pb.spinner_chars.length) :
    pb.display = some
      ("\r" ++ pb.clear_line ++ pb.color_spinner
          ++ (pb.spinner_chars.get ⟨pb.spinner_index, hs⟩).toString ++ pb.reset
          ++ " " ++ pb.color_full ++ pyRepeat pb.full_char pb.filled_length
          ++ pb.reset ++ pb.color_empty
          ++ pyRepeat pb.empty_char (pb.bar_length - pb.filled_length) ++ pb.reset
          ++ " " ++ pb.status_color ++ pb.status_text ++ pb.reset,
        { pb with spinner_index := (pb.spinner_index + 1) % pb.spinner_chars.length })
    ∧ 0 ≤ pb.filled_length ∧ pb.filled_length ≤ pb.bar_length
    ∧ pb.filled_length + (pb.bar_length - pb.filled_length) = pb.bar_length := by
  have hbd := filled_length_bounds pb ht h0 h1 hb
  refine ⟨?_, hbd.1, hbd.2, by ring⟩
  rw [ProgressBar.display, get_spinner_of_lt pb hs]
  rw [ProgressBar.generate_bar]
  simp [String.append_assoc]

/-- Witness for C1 at the concrete bar `pbDemo`. -/
theorem C1_display_witness :
    pbDemo.display = some
      ("\r" ++ pbDemo.clear_line ++ pbDemo.color_spinner
          ++ (pbDemo.spinner_chars.get ⟨pbDemo.spinner_index, by decide⟩).toString
          ++ pbDemo.reset ++ " " ++ pbDemo.color_full
          ++ pyRepeat pbDemo.full_char pbDemo.filled_length ++ pbDemo.reset
          ++ pbDemo.color_empty
          ++ pyRepeat pbDemo.empty_char (pbDemo.bar_length - pbDemo.filled_length)
          ++ pbDemo.reset ++ " " ++ pbDemo.status_color ++ pbDemo.status_text
          ++ pbDemo.reset,
        { pbDemo with
            spinner_index := (pbDemo.spinner_index + 1) % pbDemo.spinner_chars.length })
    ∧ 0 ≤ pbDemo.filled_length ∧ pbDemo.filled_length ≤ pbDemo.bar_length
    ∧ pbDemo.filled_length + (pbDemo.bar_length - pbDemo.filled_length)
        = pbDemo.bar_length :=
  C1_display_format pbDemo (by decide) (by decide) (by decide) (by decide)
    (by decide)

/-- Claim C5: the filled length equals `⌊percentage / 100 * bar_length⌋` and
lies in `[0, bar_length]`. -/
theorem C5_filled_length_spec (pb : ProgressBar) (ht : 0 < pb.total)
    (h0 : 0 ≤ pb.current_value) (h1 : pb.current_value ≤ pb.total)
    (hb : 0 ≤ pb.bar_length) :
    pb.filled_length = ⌊pb.percentage / 100 * (pb.bar_length : ℚ)⌋
    ∧ 0 ≤ pb.filled_length ∧ pb.filled_length ≤ pb.bar_length :=
  ⟨filled_length_eq_floor pb ht h0 hb,
    (filled_length_bounds pb ht h0 h1 hb).1,
    (filled_length_bounds pb ht h0 h1 hb).2⟩

/-- Witness for C5: `total = 200`, `bar_length = 50`, one `update(100)`:
the filled length is `25` and the status text is `"50.00%"`. -/
theorem C5_filled_length_witness :
    (pbBar50.update 100).filled_length
        = ⌊(pbBar50.update 100).percentage / 100
            * ((pbBar50.update 100).bar_length : ℚ)⌋
    ∧ (pbBar50.update 100).filled_length = 25
    ∧ (pbBar50.update 100).status_text = "50.00%" := by
  have hc : (pbBar50.update 100).current_value = 100 := by decide
  have htot : (pbBar50.update 100).total = 200 := by decide
  have hbl : (pbBar50.update 100).bar_length = 50 := by decide
  have hp : (pbBar50.update 100).percentage = 50 := by
    rw [ProgressBar.percentage, hc, htot]
    norm_num
  refine ⟨(C5_filled_length_spec (pbBar50.update 100) (by decide) (by decide)
      (by decide) (by decide)).1, ?_, ?_⟩
  · rw [ProgressBar.filled_length, hp, hbl, qTrunc, if_pos (by norm_num)]
    norm_num
  · rw [ProgressBar.status_text, hp, if_neg (by norm_num)]
    rw [fmtTwoDecimals_eval (50 : ℚ) 5000 (by norm_num) (by norm_num) (by norm_num)]
    rfl

/-- Claim C6: with a non-empty glyph list and the initial spinner index, the
`k`-th `_get_spinner` call returns the glyph at position `k mod glyphCount`
(color-wrapped) and leaves the index at `(k+1) mod glyphCount`. -/
theorem C6_spinner_cycle (pb : ProgressBar) (k : Nat)
    (hne : 0 < pb.spinner_chars.length) (h0 : pb.spinner_index = 0) :
    spinnerGlyphAt pb k = some (pb.color_spinner
        ++ (pb.spinner_chars.get
            ⟨k % pb.spinner_chars.length, Nat.mod_lt k hne⟩).toString
        ++ pb.reset)
    ∧ spinnerStateAfter pb (k + 1)
        = some { pb with spinner_index := (k + 1) % pb.spinner_chars.length } := by
  constructor
  · rw [spinnerGlyphAt, spinnerStateAfter_mod pb hne h0 k]
    have hlt : ({ pb with spinner_index := k % pb.spinner_chars.length }
        : ProgressBar).spinner_index
        < ({ pb with spinner_index := k % pb.spinner_chars.length }
        : ProgressBar).spinner_chars.length := Nat.mod_lt k hne
    rw [Option.some_bind, get_spinner_of_lt _ hlt]
    rfl
  · exact spinnerStateAfter_mod pb hne h0 (k + 1)

/-- Witness for C6 at `pbDemo` (two glyphs, index 0) with `k = 3`. -/
theorem C6_spinner_witness :
    spinnerGlyphAt pbDemo 3 = some (pbDemo.color_spinner
        ++ (pbDemo.spinner_chars.get
            ⟨3 % pbDemo.spinner_chars.length, by decide⟩).toString
        ++ pbDemo.reset)
    ∧ spinnerStateAfter pbDemo (3 + 1)
        = some { pbDemo with spinner_index := (3 + 1) % pbDemo.spinner_chars.length } :=
  C6_spinner_cycle pbDemo 3 (by decide) (by decide)

/-- Claim C7: from the initial state, a sequence of non-negative increments
summing to `S` leaves `current_value = min(S, total)`; each single
non-negative increment is monotone, and saturation at `total` is idempotent. -/
theorem C7_increment_sum (pb : ProgressBar) (xs : List Int)
    (hx : ∀ x ∈ xs, 0 ≤ x) (h0 : pb.current_value = 0) (ht : 0 < pb.total) :
    (applyUpdates pb xs).current_value = min xs.sum pb.total
    ∧ (∀ (q : ProgressBar) (v : Int), 0 ≤ v → q.current_value ≤ q.total →
        q.current_value ≤ (q.update v).current_value)
    ∧ (∀ (q : ProgressBar) (v : Int), 0 ≤ v → q.current_value = q.total →
        (q.update v).current_value = q.total) := by
  refine ⟨?_, ?_, ?_⟩
  · rw [applyUpdates_sum pb xs hx (by rw [h0]; exact ht.le), h0, zero_add]
  · intro q v hv hle
    show q.current_value ≤ min (q.current_value + v) q.total
    exact le_min (by linarith) hle
  · intro q v hv heq
    show min (q.current_value + v) q.total = q.total
    rw [heq]
    exact min_eq_right (by linarith)

/-- Witness for C7: `total = 5`, a single increment of `100` saturates at
`current_value = 5`, and the percentage is then `100`. -/
theorem C7_increment_witness :
    (applyUpdates pbFive [100]).current_value = min ([100] : List Int).sum pbFive.total
    ∧ (applyUpdates pbFive [100]).current_value = 5
    ∧ (applyUpdates pbFive [100]).percentage = 100 := by
  refine ⟨(C7_increment_sum pbFive [100] (by decide) (by decide) (by decide)).1,
    by decide, ?_⟩
  have hc : (applyUpdates pbFive [100]).current_value = 5 := by decide
  have htot : (applyUpdates pbFive [100]).total = 5 := by decide
  rw [ProgressBar.percentage, hc, htot]
  norm_num

/-- Counterexample to C8: on the constructed bar `ProgressBar(1)`, the single
call `update(-1)` drives `current_value` to `-1`, which is negative — the
claimed invariant `current ∈ [0, total]` fails for negative amounts. -/
theorem C8_counterexample :
    (mkDefaultBar (some 1)).toOption = some pbDefault1
    ∧ (pbDefault1.update (-1)).current_value = -1
    ∧ ¬ 0 ≤ (pbDefault1.update (-1)).current_value := by decide

/-- Claim C8 (amended): from a state with `current_value ∈ [0, total]`,
after any sequence of updates `current_value` never exceeds `total`; when
every amount is non-negative it also stays in `[0, total]`. -/
theorem C8_invariant_amended (pb : ProgressBar) (xs : List Int)
    (h0 : 0 ≤ pb.current_value) (h1 : pb.current_value ≤ pb.total) :
    (applyUpdates pb xs).current_value ≤ pb.total
    ∧ ((∀ x ∈ xs, 0 ≤ x) →
        0 ≤ (applyUpdates pb xs).current_value
          ∧ (applyUpdates pb xs).current_value ≤ pb.total) := by
  have hle := applyUpdates_le_total pb xs h1
  rw [applyUpdates_total] at hle
  refine ⟨hle, fun hx => ⟨?_, hle⟩⟩
  rw [applyUpdates_sum pb xs hx h1]
  exact le_min (add_nonneg h0 (List.sum_nonneg hx)) (h0.trans h1)

/-- Witness for the amended C8 at `pbDemo` with the single increment `3`. -/
theorem C8_invariant_witness :
    (applyUpdates pbDemo [3]).current_value ≤ pbDemo.total
    ∧ 0 ≤ (applyUpdates pbDemo [3]).current_value :=
  ⟨(C8_invariant_amended pbDemo [3] (by decide) (by decide)).1,
    ((C8_invariant_amended pbDemo [3] (by decide) (by decide)).2 (by decide)).1⟩

/-- Counterexample to C9: on `ProgressBar(1)` after `update(1)` the bar is
Completed (`percentage = 100`, status text `"Completed!"`), but the
increment `update(-1)` decreases `current_value` and the status text
switches back away from the completion form. -/
theorem C9_counterexample :
    100 ≤ (pbDefault1.update 1).percentage
    ∧ (pbDefault1.update 1).status_text = "Completed!"
    ∧ ((pbDefault1.update 1).update (-1)).current_value
        < (pbDefault1.update 1).current_value
    ∧ ((pbDefault1.update 1).update (-1)).percentage < 100
    ∧ ((pbDefault1.update 1).update (-1)).status_text ≠ "Completed!" := by
  have hp : (pbDefault1.update 1).percentage = 100 :=
    percentage_complete _ (by decide) (by decide)
  have hq : ((pbDefault1.update 1).update (-1)).percentage < 100 := by
    rw [percentage_lt_iff _ (by decide)]
    decide
  refine ⟨hp.ge, ?_, by decide, hq, ?_⟩
  · rw [ProgressBar.status_text, if_pos hp.ge]
  · rw [ProgressBar.status_text, if_neg (not_le.mpr hq)]
    exact append_percent_ne_completed _

/-- Claim C9 (amended): no increment with a non-negative amount decreases
`current_value`, so over sequences of non-negative increments the Completed
state (`percentage ≥ 100`) is terminal: the percentage stays at least 100 and
the status text and color keep the completion form. -/
theorem C9_terminal_amended (pb : ProgressBar) (xs : List Int)
    (ht : 0 < pb.total) (h1 : pb.current_value ≤ pb.total)
    (hx : ∀ x ∈ xs, 0 ≤ x) (hdone : 100 ≤ pb.percentage) :
    100 ≤ (applyUpdates pb xs).percentage
    ∧ (applyUpdates pb xs).status_text = "Completed!"
    ∧ (applyUpdates pb xs).status_color = (applyUpdates pb xs).color_complete
    ∧ (∀ (q : ProgressBar) (v : Int), 0 ≤ v → q.current_value ≤ q.total →
        q.current_value ≤ (q.update v).current_value) := by
  have hceq : pb.current_value = pb.total :=
    le_antisymm h1 ((hundred_le_percentage_iff pb ht).mp hdone)
  have hcur : (applyUpdates pb xs).current_value = pb.total := by
    rw [applyUpdates_sum pb xs hx h1, hceq]
    exact min_eq_right (by linarith [List.sum_nonneg hx])
  have htot := applyUpdates_total pb xs
  have hp : 100 ≤ (applyUpdates pb xs).percentage := by
    rw [hundred_le_percentage_iff _ (by rw [htot]; exact ht), hcur, htot]
  refine ⟨hp, ?_, ?_, ?_⟩
  · rw [ProgressBar.status_text, if_pos hp]
  · rw [ProgressBar.status_color, if_pos hp]
  · intro q v hv hle
    show q.current_value ≤ min (q.current_value + v) q.total
    exact le_min (by linarith) hle

/-- Witness for the amended C9: `ProgressBar(1)` after `update(1)` is
Completed, and stays Completed across the increments `[0, 7]`. -/
theorem C9_terminal_witness :
    100 ≤ (applyUpdates (pbDefault1.update 1) [0, 7]).percentage
    ∧ (applyUpdates (pbDefault1.update 1) [0, 7]).status_text = "Completed!" :=
  ⟨(C9_terminal_amended (pbDefault1.update 1) [0, 7] (by decide) (by decide)
      (by decide) (le_of_eq (percentage_complete _ (by decide) (by decide)).symm)).1,
    (C9_terminal_amended (pbDefault1.update 1) [0, 7] (by decide) (by decide)
      (by decide) (le_of_eq (percentage_complete _ (by decide) (by decide)).symm)).2.1⟩

/-- Claim C10: construction validates only `total` — an empty
`spinner_chars` (and any, even non-positive, `bar_length`) is accepted — but
on every bar whose `spinner_chars` is empty, `_get_spinner` and hence
`display` fail (Python `IndexError` on indexing an empty sequence), so
rendering is not total over constructor-accepted configurations. -/
theorem C10_construct_lenient (t : Int) (ht : 0 < t) (bl : Int)
    (fc ec : String) (c1 c2 c3 c4 c5 r cl : String) :
    mkProgressBar (some t) bl fc ec [] c1 c2 c3 c4 c5 r cl
      = Except.ok ⟨t, bl, fc, ec, [], c1, c2, c3, c4, c5, r, cl, 0, 0⟩
    ∧ ∀ pb : ProgressBar, pb.spinner_chars = [] →
        pb.get_spinner = none ∧ pb.display = none := by
  constructor
  · simp only [mkProgressBar]
    rw [if_neg (not_le.mpr ht)]
  · intro pb hsp
    have hnone : pb.spinner_chars[pb.spinner_index]? = none := by
      rw [hsp]
      exact List.getElem?_nil
    have hg : pb.get_spinner = none := by
      rw [ProgressBar.get_spinner, hnone]
    exact ⟨hg, by rw [ProgressBar.display, hg]⟩

/-- Witness for C10: `total = 5` with empty spinner characters and
`bar_length = -3` constructs successfully, yet `display` fails on it. -/
theorem C10_construct_witness :
    mkProgressBar (some 5) (-3) "#" "-" [] "F" "E" "S" "T" "C" "R" "L"
      = Except.ok ⟨5, -3, "#", "-", [], "F", "E", "S", "T", "C", "R", "L", 0, 0⟩
    ∧ (⟨5, -3, "#", "-", [], "F", "E", "S", "T", "C", "R", "L", 0, 0⟩
        : ProgressBar).display = none :=
  ⟨(C10_construct_lenient 5 (by decide) (-3) "#" "-" "F" "E" "S" "T" "C" "R" "L").1,
    ((C10_construct_lenient 5 (by decide) (-3) "#" "-" "F" "E" "S" "T" "C" "R" "L").2
      ⟨5, -3, "#", "-", [], "F", "E", "S", "T", "C", "R", "L", 0, 0⟩ rfl).2⟩
